import Mathlib

/-!
Verification of the seo-analyzer crawler core (src/index.js): URL
canonicalization and scope classification, the crawl frontier
(`pagesVisited` map plus `queueURLToCrawl`), and the SEO scoring engine
(`scorePage` / `adjustTermScores`).  JavaScript strings are modelled as
Lean `String`, the `pagesVisited` object as an insertion-ordered
association list, machine numbers as `Int`/`Nat`, and the `url-parse` /
`path` library calls by executable functions reproducing their behaviour
on the URL shapes the crawler handles.  Fallible code (the
`pageDetails.terms.vocabulary` access, which throws a TypeError when the
`terms` field has been deleted) is modelled with `Option`.
-/

/-- Model of JavaScript `String.prototype.toLowerCase` (ASCII case fold,
which is all the crawler's inputs use). -/
def jsToLower (s : String) : String :=
  String.mk (s.toList.map Char.toLower)

/-- Auxiliary recursion for `splitOnChar`, accumulating the current field
in reverse. -/
def splitCharAux (c : Char) : List Char → List Char → List String
  | [], acc => [String.mk acc.reverse]
  | x :: xs, acc =>
    if x = c then String.mk acc.reverse :: splitCharAux c xs []
    else splitCharAux c xs (x :: acc)

/-- Model of JavaScript `s.split(c)` for a one-character separator: every
occurrence of `c` separates fields, and adjacent separators produce empty
fields, exactly as in JavaScript. -/
def splitOnChar (c : Char) (s : String) : List String :=
  splitCharAux c s.toList []

/-- Replace the first occurrence of `c` in a character list by `r`. -/
def replaceFirstChar (c r : Char) : List Char → List Char
  | [] => []
  | x :: xs => if x = c then r :: xs else x :: replaceFirstChar c r xs

/-- Model of JavaScript `s.replace(c, r)` with one-character string
arguments: only the FIRST occurrence is replaced. -/
def jsReplaceFirst (c r : Char) (s : String) : String :=
  String.mk (replaceFirstChar c r s.toList)

/-- Whitespace characters removed by JavaScript `String.prototype.trim`
(the ones that can occur in the crawler's keyword strings). -/
def isJsSpace (c : Char) : Bool :=
  c = ' ' || c = '\t' || c = '\n' || c = '\r'

/-- Model of JavaScript `String.prototype.trim`. -/
def jsTrim (s : String) : String :=
  String.mk (((s.toList.dropWhile isJsSpace).reverse.dropWhile isJsSpace).reverse)

/-- Model of `String.prototype.startsWith`. -/
def startsWithStr (s p : String) : Bool :=
  p.toList.isPrefixOf s.toList

/-- Model of Node's POSIX `Path.dirname`: skip trailing slashes (never
looking at index 0), cut at the next slash; `"/"` when none is found in a
rooted path and `"."` otherwise. -/
def jsDirname (p : String) : String :=
  if p = "" then "."
  else
    let cs1 := p.toList.drop 1
    let r := (cs1.reverse.dropWhile (· = '/')).dropWhile (· ≠ '/')
    let hasRoot := p.toList.head? = some '/'
    if r.isEmpty then (if hasRoot then "/" else ".")
    else if hasRoot ∧ r.length = 1 then "//"
    else String.mk (p.toList.take r.length)

/-- Parsed URL pieces, as the `url-parse` package exposes them:
`protocol` keeps its trailing colon (or is empty), `hostname` is
lower-cased (or empty for relative references), `pathname` excludes query
and fragment (and is empty, not "/", for URLs such as "https://host"). -/
structure URLParts where
  protocol : String
  hostname : String
  pathname : String
deriving DecidableEq, Repr

/-- Cut a character list at the first occurrence of the literal "://". -/
def splitSchemeAux : List Char → Option (List Char × List Char)
  | [] => none
  | ':' :: '/' :: '/' :: rest => some ([], rest)
  | c :: rest => (splitSchemeAux rest).map (fun p => (c :: p.1, p.2))

/-- Characters that terminate the hostname portion of a URL. -/
def isHostEnd (c : Char) : Bool :=
  c = '/' || c = '?' || c = '#'

/-- Drop the query and fragment from a pathname. -/
def stripQueryHash (cs : List Char) : List Char :=
  cs.takeWhile (fun c => c ≠ '?' && c ≠ '#')

/-- Model of `URLParse` from the `url-parse` package, on the URL shapes
the crawler handles: absolute `scheme://host/path` URLs,
protocol-relative `//host/path` URLs, and host-less relative references
(whose hostname and protocol come back empty and whose pathname is the
reference itself minus query and fragment). -/
def urlParse (u : String) : URLParts :=
  let cs := u.toList
  if cs.take 2 = ['/', '/'] then
    let rest := cs.drop 2
    { protocol := ""
      hostname := jsToLower (String.mk (rest.takeWhile (fun c => !isHostEnd c)))
      pathname := String.mk (stripQueryHash (rest.dropWhile (fun c => !isHostEnd c))) }
  else
    match splitSchemeAux cs with
    | some (scheme, rest) =>
      { protocol := jsToLower (String.mk scheme) ++ ":"
        hostname := jsToLower (String.mk (rest.takeWhile (fun c => !isHostEnd c)))
        pathname := String.mk (stripQueryHash (rest.dropWhile (fun c => !isHostEnd c))) }
    | none =>
      { protocol := "", hostname := "", pathname := String.mk (stripQueryHash cs) }

/-- Does a pathname match the regular expression
`/^\/?index\.(html|php|jsp)$/` from `isIndexPage`? -/
def indexPathMatch (p : String) : Bool :=
  let q := if startsWithStr p "/" then String.mk (p.toList.drop 1) else p
  q = "index.html" || q = "index.php" || q = "index.jsp"

/-- Embedding of `isIndexPage` (src/index.js lines 298-301): a URL is a
synonym for the root index page when its parsed pathname is empty, "/",
or an `index.(html|php|jsp)` page. -/
def isIndexPage (URL : String) : Bool :=
  let URLParts := urlParse URL
  URLParts.pathname.length = 0 || URLParts.pathname = "/" || indexPathMatch URLParts.pathname

/-- Analyzer configuration (the fields of `defaultConfiguration` that the
crawler core reads; `protocol` keeps its trailing colon, e.g. "https:"). -/
structure Configuration where
  protocol : String
  host : String
  startPage : String
  subPathOnly : Bool
  basePath : String
deriving DecidableEq, Repr

/-- One entry of the combined word/frequency list built by
`sortWordsByFrequency`. -/
structure TermFreq where
  term : String
  frequency : Int
deriving DecidableEq, Repr

/-- A `pagesVisited` record (the object literal of `queueURLToCrawl`,
src/index.js lines 490-503).  Fields the JavaScript code attaches later
(`pageAnalysis`, `wordFrequencyList`, `completeTime`) are carried with
their pre-attachment defaults; the `terms` field is an `Option` because
`scorePage` deletes it, making later accesses undefined.  `terms` holds
the DocumentTermMatrix data the page processor computes: the vocabulary
and its aligned frequency row `data[0]`. -/
structure PageDetails where
  statusCode : Int
  queueTime : Int
  referrer : String
  analyze : Bool
  pageScore : Int
  title : String
  description : String
  keywords : String
  headerOne : String
  lastModified : String
  product : String
  version : String
  pageAnalysis : String
  wordFrequencyList : List TermFreq
  terms : Option (List String × List Int)
  completeTime : Int
deriving DecidableEq, Repr

/-- The crawler state: the `pagesVisited` object (an insertion-ordered
map from URL to record) and the crawler's pending queue. -/
structure CrawlState where
  pagesVisited : List (String × PageDetails)
  queue : List String
deriving DecidableEq, Repr

/-- Model of `pagesVisited[URL]`: the value at the first matching key. -/
def findRecord : List (String × PageDetails) → String → Option PageDetails
  | [], _ => none
  | (k, v) :: rest, u => if k = u then some v else findRecord rest u

/-- Number of entries stored under a key. -/
def countKey (l : List (String × PageDetails)) (u : String) : Nat :=
  (l.filter (fun e => e.1 = u)).length

/-- The symbol blacklist `specialWordFilter` (src/index.js lines 50-66). -/
def specialWordFilter : List String :=
  [":", "=", "==", "\x7b", "\x7d", "|", ";", "(", ")", "++", "//", "://", "**", "***", "()"]

/-- The zip-and-filter loop of `sortWordsByFrequency` (lines 78-86):
combine each term with its frequency, skipping blacklisted symbols. -/
def combineWords : List String → List Int → List TermFreq
  | w :: ws, f :: fs =>
    if specialWordFilter.contains w then combineWords ws fs
    else ⟨w, f⟩ :: combineWords ws fs
  | _, _ => []

/-- Stable insertion into a list sorted by descending frequency: an
element inserted later stays after earlier elements of equal frequency,
matching the stable JavaScript `Array.prototype.sort`. -/
def insertDescending (x : TermFreq) : List TermFreq → List TermFreq
  | [] => [x]
  | y :: ys => if x.frequency ≤ y.frequency then y :: insertDescending x ys else x :: y :: ys

/-- Stable sort by descending frequency (the
`sort((a, b) => b.frequency - a.frequency)` call of lines 87-90). -/
def sortByFrequencyDescending (l : List TermFreq) : List TermFreq :=
  l.foldl (fun acc x => insertDescending x acc) []

/-- Embedding of `sortWordsByFrequency` (src/index.js lines 73-91). -/
def sortWordsByFrequency (wordList : List String) (frequencyList : List Int) : List TermFreq :=
  sortByFrequencyDescending (combineWords wordList frequencyList)

/-- One iteration of the inner loop of the boost passes (e.g. lines
139-149): when the metadata word equals the term, the term's frequency
always grows by the boost amount, while the score (second component) and
the boosted-word count (third component) only grow when the frequency
exceeded 1 at the time of the comparison. -/
def boostEntry (cmpWord : String) (amount : Int) (e : TermFreq) : TermFreq × Int × Nat :=
  if cmpWord = e.term then
    (⟨e.term, e.frequency + amount⟩,
     if e.frequency > 1 then amount else 0,
     if e.frequency > 1 then 1 else 0)
  else (e, 0, 0)

/-- The inner `for (crawledWordIndex in wordFrequencyList)` loop: apply
`boostEntry` to every entry, summing score and count deltas. -/
def boostWordOverList (cmpWord : String) (amount : Int) :
    List TermFreq → List TermFreq × Int × Nat
  | [] => ([], 0, 0)
  | e :: rest =>
    let r := boostEntry cmpWord amount e
    let rr := boostWordOverList cmpWord amount rest
    (r.1 :: rr.1, r.2.1 + rr.2.1, r.2.2 + rr.2.2)

/-- Accumulated result of one boost pass over all metadata words. -/
structure BoostAcc where
  wfl : List TermFreq
  score : Int
  count : Nat
  h1Hits : Nat
deriving DecidableEq, Repr

/-- The outer `for (index in boostWords)` loop of a boost pass: each word
is lower-cased, compared (after `trim()` in the keyword pass) against
every term, and counted against the H1 word list. -/
def boostPass (amount : Int) (trimCmp : Bool) (h1Words : Option (List String)) :
    List String → List TermFreq → BoostAcc
  | [], wfl => ⟨wfl, 0, 0, 0⟩
  | w :: rest, wfl =>
    let word := jsToLower w
    let cmp := if trimCmp then jsTrim word else word
    let r := boostWordOverList cmp amount wfl
    let h : Nat :=
      match h1Words with
      | some hw => if hw.contains word then 1 else 0
      | none => 0
    let s := boostPass amount trimCmp h1Words rest r.1
    ⟨s.wfl, r.2.1 + s.score, r.2.2 + s.count, h + s.h1Hits⟩

/-- Result of one metadata block of `scorePage`: updated frequency list,
score delta, analysis clause and H1-match count. -/
structure BlockResult where
  wfl : List TermFreq
  score : Int
  clause : String
  h1Hits : Nat
deriving DecidableEq, Repr

/-- One metadata block of `scorePage` (the title block, lines 134-161,
and its description/keyword copies differing only in the constants):
when the field is present run the boost pass and emit the good/bad
clause, otherwise emit the very-bad clause. -/
def boostBlock (present : Bool) (words : List String) (amount : Int) (trimCmp : Bool)
    (h1Words : Option (List String)) (goodPre goodPost badClause absentClause : String)
    (wfl : List TermFreq) : BlockResult :=
  if present then
    let b := boostPass amount trimCmp h1Words words wfl
    { wfl := b.wfl
      score := b.score
      clause := if b.count > 0 then goodPre ++ Nat.repr b.count ++ goodPost else badClause
      h1Hits := b.h1Hits }
  else { wfl := wfl, score := 0, clause := absentClause, h1Hits := 0 }

/-- The freshness block of `scorePage` (lines 224-237), with the current
clock value and the `new Date(...).valueOf()` parser passed in. -/
def freshnessScore (now : Int) (dateValue : String → Int) (lastModified : String) :
    Int × String :=
  if lastModified ≠ "" then
    let age := now - dateValue lastModified
    if age > 365 * 24 * 60 * 60 * 1000 then (-1, "; bad: page over 1 year old.")
    else (1, "; good: page is recent.")
  else (-2, "; bad: page missing last-modified.")

/-- The product/version block of `scorePage` (lines 241-250). -/
def productVersionScore (product version : String) : Int × String :=
  if product ≠ "" then
    if version = "" then (-1, "; bad: page has product but missing version.")
    else (1, "; good: page has product and version.")
  else (0, "")

/-- The H1 block of `scorePage` (lines 253-260). -/
def headerOneScore (headerOne : String) (hT hD hK : Nat) : Int × String :=
  if headerOne ≠ "" then
    ((1 : Int) + hT + hD + hK,
     "; good: page has H1, " ++ Nat.repr hT ++ " in title, " ++ Nat.repr hD ++
       " in description, " ++ Nat.repr hK ++ " in keywords")
  else (-1, "; bad: page missing H1.")

/-- Embedding of `scorePage` (src/index.js lines 113-267).  Returns
`none` exactly when the JavaScript would throw: the function is entered
with `analyze` set but the `terms` field already deleted, so
`pageDetails.terms.vocabulary` is an access on `undefined`.  Otherwise it
runs the title, description and keyword boost passes (in that order, the
later passes reading the frequencies mutated by the earlier ones), the
freshness, product/version and H1 rules, stores the score, analysis and
word list, and deletes `terms`. -/
def scorePage (now : Int) (dateValue : String → Int) (pd : PageDetails) :
    Option PageDetails :=
  if pd.analyze = true then
    match pd.terms with
    | none => none
    | some tm =>
      let wfl0 := sortWordsByFrequency tm.1 tm.2
      let h1Words : Option (List String) :=
        if pd.headerOne ≠ "" then some (splitOnChar ' ' pd.headerOne) else none
      let tB := boostBlock (pd.title ≠ "") (splitOnChar ' ' pd.title) 2 false h1Words
        "good: " " title words appear in body." "bad: no title words appear in body."
        "; very bad: no title." wfl0
      let dB := boostBlock (pd.description ≠ "") (splitOnChar ' ' pd.description) 2 false
        h1Words "; good: " " description words appear in body."
        "; bad: no description words appear in body." "; very bad: no description." tB.wfl
      let kB := boostBlock (pd.keywords ≠ "")
        (splitOnChar ' ' (jsReplaceFirst ',' ' ' pd.keywords)) 1 true h1Words
        "; good: " " keywords appear in body." "; bad: no keywords appear in body."
        "; very bad: no keywords." dB.wfl
      let fresh := freshnessScore now dateValue pd.lastModified
      let prodV := productVersionScore pd.product pd.version
      let h1B := headerOneScore pd.headerOne tB.h1Hits dB.h1Hits kB.h1Hits
      some { pd with
        pageScore := tB.score + dB.score + kB.score + fresh.1 + prodV.1 + h1B.1
        pageAnalysis := tB.clause ++ dB.clause ++ kB.clause ++ fresh.2 ++ prodV.2 ++ h1B.2
        wordFrequencyList := kB.wfl
        terms := none }
  else some pd

/-- The fresh record object literal of `queueURLToCrawl` (src/index.js
lines 490-503): statusCode is the Pending sentinel -1, metadata fields
are empty strings, and the fields attached later are at their
pre-attachment defaults (`terms` absent). -/
def initPageDetails (now : Int) (referrer : String) (analyze : Bool) : PageDetails :=
  { statusCode := -1
    queueTime := now
    referrer := referrer
    analyze := analyze
    pageScore := 0
    title := ""
    description := ""
    keywords := ""
    headerOne := ""
    lastModified := ""
    product := ""
    version := ""
    pageAnalysis := ""
    wordFrequencyList := []
    terms := none
    completeTime := 0 }

/-- The protocol prefixing at the top of `queueURLToCrawl` (lines
486-488): a URL beginning with "//" gets the configured protocol. -/
def normalizeQueueURL (cfg : Configuration) (u : String) : String :=
  if u.toList.take 2 = ['/', '/'] then cfg.protocol ++ u else u

/-- Embedding of `queueURLToCrawl` (src/index.js lines 484-510): after
protocol prefixing, if no record exists for the URL a Pending record is
stored, the URL is queued with the crawler and `true` is returned;
otherwise nothing changes and `false` is returned. -/
def queueURLToCrawl (cfg : Configuration) (now : Int) (url referrer : String)
    (analyze : Bool) (st : CrawlState) : Bool × CrawlState :=
  let u := normalizeQueueURL cfg url
  match findRecord st.pagesVisited u with
  | none =>
    (true,
     { pagesVisited := st.pagesVisited ++ [(u, initPageDetails now referrer analyze)]
       queue := st.queue ++ [u] })
  | some _ => (false, st)

/-- Embedding of `makeURL` (lines 351-353). -/
def makeURL (cfg : Configuration) (pathFromRoot : String) : String :=
  cfg.protocol ++ "//" ++ cfg.host ++ pathFromRoot

/-- Embedding of `isIntendedSubPath` (src/index.js lines 369-386): the
hostname must be empty or, lower-cased, equal the configured host string
verbatim; with `subPathOnly` set the pathname must additionally start
with the configured base path. -/
def isIntendedSubPath (cfg : Configuration) (URLParts : URLParts) : Bool :=
  if URLParts.hostname.length = 0 ∨ jsToLower URLParts.hostname = cfg.host then
    if cfg.subPathOnly then startsWithStr URLParts.pathname cfg.basePath
    else true
  else false

/-- Embedding of `cleanURL` (src/index.js lines 401-454).  Returns the
canonical URL to analyze, or `none` together with any probe-only enqueue
already issued to the frontier.  The in-scope duplicate check tests
`pagesVisited[proposedURL]` — the raw href — exactly as the source does.
Out-of-scope URLs get missing protocol/hostname filled from the
configuration and are collapsed by index-page aliasing before the
probe-only enqueue. -/
def cleanURL (cfg : Configuration) (now : Int) (proposedURL currentURL referrer : String)
    (st : CrawlState) : Option String × CrawlState :=
  if proposedURL.length > 0 ∧ proposedURL.toList.head? ≠ some '#' ∧
      proposedURL.toList.head? ≠ some '?' then
    let proposedURL :=
      if proposedURL.toList.take 2 = ['/', '/'] then cfg.protocol ++ proposedURL
      else proposedURL
    let URLParts := urlParse proposedURL
    if isIntendedSubPath cfg URLParts then
      let realURL :=
        if URLParts.pathname.toList.head? ≠ some '/' then
          makeURL cfg (jsDirname currentURL ++ "/" ++ URLParts.pathname)
        else makeURL cfg URLParts.pathname
      if (findRecord st.pagesVisited proposedURL).isSome then (none, st)
      else if cfg.subPathOnly then
        if ¬ startsWithStr URLParts.pathname cfg.basePath = true ∧
            findRecord st.pagesVisited realURL = none then
          (none, (queueURLToCrawl cfg now realURL referrer false st).2)
        else (some realURL, st)
      else (some realURL, st)
    else
      let proto := if URLParts.protocol = "" then cfg.protocol else URLParts.protocol
      let host := if URLParts.hostname = "" then cfg.host else URLParts.hostname
      let probeURL :=
        if isIndexPage proposedURL then proto ++ "//" ++ host ++ "/"
        else proto ++ "//" ++ host ++ URLParts.pathname
      if findRecord st.pagesVisited probeURL = none then
        (none, (queueURLToCrawl cfg now probeURL referrer false st).2)
      else (none, st)
  else (none, st)

/-- The anchor-element callback of `analyzePage` (src/index.js lines
538-544): resolve the href with `cleanURL` and, when a canonical URL
comes back, enqueue it for full analysis. -/
def discoverLink (cfg : Configuration) (now : Int) (href currentPath pageURL : String)
    (st : CrawlState) : CrawlState :=
  let r := cleanURL cfg now href currentPath pageURL st
  match r.1 with
  | some url => (queueURLToCrawl cfg now url pageURL true r.2).2
  | none => r.2

/-- Fold `discoverLink` over every anchor of the page body. -/
def discoverLinks (cfg : Configuration) (now : Int) (currentPath pageURL : String)
    (links : List String) (st : CrawlState) : CrawlState :=
  links.foldl (fun s href => discoverLink cfg now href currentPath pageURL s) st

/-- The parsed document handed to the page processor by the fetch
service: the metadata selections of src/index.js lines 532-537, the
anchor hrefs of the body, and the vocabulary/frequency row the TextMiner
corpus pipeline (lines 545-559, an external library) produces from the
page text.  Selections that come back `undefined` in JavaScript are
modelled as empty strings. -/
structure ParsedDoc where
  docTitle : String
  docDescription : String
  docKeywords : String
  docLastModified : String
  docProduct : String
  docHeaderOne : String
  links : List String
  vocabulary : List String
  freqs : List Int
deriving DecidableEq, Repr

/-- The record-update body of `analyzePage` (src/index.js lines 526-572)
for one completed fetch: store the status code; for an analyze-mode
record with a successful HTML response extract the metadata, discover
links, attach the term matrix and run `scorePage`; otherwise clear the
analyze flag.  `doc` is `none` when the response was not HTML.  Returns
`none` exactly when `scorePage` would throw. -/
def processResponse (cfg : Configuration) (now : Int) (dateValue : String → Int)
    (url : String) (statusCode : Int) (doc : Option ParsedDoc) (pd : PageDetails)
    (st : CrawlState) : Option (PageDetails × CrawlState) :=
  let URLParts := urlParse url
  let pd := { pd with statusCode := statusCode }
  if statusCode < 300 ∧ pd.analyze = true then
    match doc with
    | some d =>
      let pd := { pd with
        title := d.docTitle
        description := d.docDescription
        keywords := d.docKeywords
        lastModified := d.docLastModified
        product := d.docProduct
        headerOne := jsToLower d.docHeaderOne }
      let st := discoverLinks cfg now URLParts.pathname url d.links st
      let pd := { pd with terms := some (d.vocabulary, d.freqs) }
      match scorePage now dateValue pd with
      | some pd2 => some ({ pd2 with completeTime := now }, st)
      | none => none
    | none => some ({ pd with analyze := false, completeTime := now }, st)
  else some ({ pd with analyze := false, completeTime := now }, st)

/-- Embedding of `adjustTermScores` (src/index.js lines 462-474): drop
every record whose statusCode is still the -1 sentinel, and re-run
`scorePage` on analyzed records whose pageScore is 0.  Returns `none`
exactly when one of those `scorePage` calls would throw. -/
def adjustTermScores (now : Int) (dateValue : String → Int) :
    List (String × PageDetails) → Option (List (String × PageDetails))
  | [] => some []
  | (url, pd) :: rest =>
    if pd.statusCode = -1 then adjustTermScores now dateValue rest
    else
      let step : Option PageDetails :=
        if pd.analyze = true ∧ pd.pageScore = 0 then scorePage now dateValue pd
        else some pd
      match step with
      | none => none
      | some pd2 => (adjustTermScores now dateValue rest).map (fun l => (url, pd2) :: l)

/-- Scope classification exactly as the specification words it (for
comparison with `isIntendedSubPath`): hostname empty or equal to the
configured host CASE-INSENSITIVELY (both sides folded), and scope
restriction disabled or pathname under the base path. -/
def specInScopeClaim (cfg : Configuration) (parts : URLParts) : Prop :=
  (parts.hostname = "" ∨ jsToLower parts.hostname = jsToLower cfg.host) ∧
  (cfg.subPathOnly = false ∨ startsWithStr parts.pathname cfg.basePath = true)

instance (cfg : Configuration) (parts : URLParts) : Decidable (specInScopeClaim cfg parts) := by
  unfold specInScopeClaim
  infer_instance

/-- Looking a key up past a block that does not contain it. -/
theorem findRecord_append_of_none (l1 l2 : List (String × PageDetails)) (u : String)
    (h : findRecord l1 u = none) : findRecord (l1 ++ l2) u = findRecord l2 u := by
  induction l1 with
  | nil => rfl
  | cons e rest ih =>
    obtain ⟨k, v⟩ := e
    by_cases hk : k = u
    · rw [findRecord, if_pos hk] at h
      cases h
    · rw [findRecord, if_neg hk] at h
      rw [List.cons_append, findRecord, if_neg hk]
      exact ih h

/-- Key counts add over append. -/
theorem countKey_append (l1 l2 : List (String × PageDetails)) (u : String) :
    countKey (l1 ++ l2) u = countKey l1 u + countKey l2 u := by
  simp [countKey, List.filter_append]

/-- A key that `findRecord` misses occurs zero times. -/
theorem countKey_of_findRecord_none (l : List (String × PageDetails)) (u : String)
    (h : findRecord l u = none) : countKey l u = 0 := by
  induction l with
  | nil => rfl
  | cons e rest ih =>
    obtain ⟨k, v⟩ := e
    by_cases hk : k = u
    · rw [findRecord, if_pos hk] at h
      cases h
    · rw [findRecord, if_neg hk] at h
      simp only [countKey, List.filter_cons]
      rw [if_neg (by simp [hk])]
      exact ih h

/-- C1: enqueuing the same URL twice through `queueURLToCrawl` returns
`true` then `false`; the second call leaves the whole crawler state
untouched; afterwards exactly one record exists for the (protocol-
normalized) URL, and it is the Pending record (statusCode -1) carrying
the given referrer and analyze mode. -/
theorem C1_enqueue_idempotent (cfg : Configuration) (now1 now2 : Int)
    (u referrer : String) (analyze : Bool) (st : CrawlState)
    (h : findRecord st.pagesVisited (normalizeQueueURL cfg u) = none) :
    (queueURLToCrawl cfg now1 u referrer analyze st).1 = true ∧
    (queueURLToCrawl cfg now2 u referrer analyze
        (queueURLToCrawl cfg now1 u referrer analyze st).2).1 = false ∧
    (queueURLToCrawl cfg now2 u referrer analyze
        (queueURLToCrawl cfg now1 u referrer analyze st).2).2 =
      (queueURLToCrawl cfg now1 u referrer analyze st).2 ∧
    findRecord (queueURLToCrawl cfg now1 u referrer analyze st).2.pagesVisited
        (normalizeQueueURL cfg u) = some (initPageDetails now1 referrer analyze) ∧
    countKey (queueURLToCrawl cfg now1 u referrer analyze st).2.pagesVisited
        (normalizeQueueURL cfg u) = 1 := by
  have hq1 : queueURLToCrawl cfg now1 u referrer analyze st =
      (true,
       { pagesVisited := st.pagesVisited ++
           [(normalizeQueueURL cfg u, initPageDetails now1 referrer analyze)]
         queue := st.queue ++ [normalizeQueueURL cfg u] }) := by
    simp only [queueURLToCrawl]
    rw [h]
  have hfind : findRecord (st.pagesVisited ++
      [(normalizeQueueURL cfg u, initPageDetails now1 referrer analyze)])
      (normalizeQueueURL cfg u) = some (initPageDetails now1 referrer analyze) := by
    rw [findRecord_append_of_none _ _ _ h]
    simp [findRecord]
  have hq2 : queueURLToCrawl cfg now2 u referrer analyze
      (queueURLToCrawl cfg now1 u referrer analyze st).2 =
      (false, (queueURLToCrawl cfg now1 u referrer analyze st).2) := by
    rw [hq1]
    simp only [queueURLToCrawl]
    rw [hfind]
  refine ⟨by rw [hq1], by rw [hq2], by rw [hq2], by rw [hq1]; exact hfind, ?_⟩
  rw [hq1]
  have h0 := countKey_of_findRecord_none _ _ h
  rw [countKey_append, h0]
  simp [countKey]

/-- C1 witness: the two calls at a concrete fresh URL on the empty
frontier. -/
theorem C1_enqueue_idempotent_witness :
    findRecord (CrawlState.mk [] []).pagesVisited
      (normalizeQueueURL ⟨"https:", "h", "/", true, "/"⟩ "https://h/") = none ∧
    (queueURLToCrawl ⟨"https:", "h", "/", true, "/"⟩ 0 "https://h/" "r" true
      (CrawlState.mk [] [])).1 = true ∧
    (queueURLToCrawl ⟨"https:", "h", "/", true, "/"⟩ 1 "https://h/" "r" true
      (queueURLToCrawl ⟨"https:", "h", "/", true, "/"⟩ 0 "https://h/" "r" true
        (CrawlState.mk [] [])).2).1 = false :=
  ⟨rfl,
   (C1_enqueue_idempotent ⟨"https:", "h", "/", true, "/"⟩ 0 1 "https://h/" "r" true
     (CrawlState.mk [] []) rfl).1,
   (C1_enqueue_idempotent ⟨"https:", "h", "/", true, "/"⟩ 0 1 "https://h/" "r" true
     (CrawlState.mk [] []) rfl).2.1⟩

/-- Configuration used for the index-aliasing scenario: crawling
example.com/docs, so that URLs on host "host" are out of scope. -/
def cfg3 : Configuration :=
  { protocol := "https:", host := "example.com", startPage := "/docs/index.html",
    subPathOnly := true, basePath := "/docs" }

/-- The empty crawler state. -/
def stEmpty : CrawlState := { pagesVisited := [], queue := [] }

/-- Referrer used in the concrete scenarios. -/
def ref3 : String := "https://example.com/docs/index.html"

/-- C3: `https://host/`, `https://host` and `https://host/index.html` are
all index-page synonyms and all collapse to the single canonical record
`https://host/` when resolved one after the other: only the first call
creates a record, and one record exists afterwards.  A root URL with
empty protocol and hostname gets them filled from the configuration
before aliasing, yielding `https://example.com/`. -/
theorem C3_index_aliasing :
    isIndexPage "https://host/" = true ∧ isIndexPage "https://host" = true ∧
    isIndexPage "https://host/index.html" = true ∧
    (let r1 := cleanURL cfg3 0 "https://host/" "/docs/index.html" ref3 stEmpty
     let r2 := cleanURL cfg3 0 "https://host" "/docs/index.html" ref3 r1.2
     let r3 := cleanURL cfg3 0 "https://host/index.html" "/docs/index.html" ref3 r2.2
     r1.1 = none ∧ r2.1 = none ∧ r3.1 = none ∧
     r3.2.pagesVisited = [("https://host/", initPageDetails 0 ref3 false)] ∧
     countKey r3.2.pagesVisited "https://host/" = 1) ∧
    (cleanURL cfg3 0 "/" "/docs/index.html" ref3 stEmpty).2.pagesVisited =
      [("https://example.com/", initPageDetails 0 ref3 false)] := by decide

/-- Configuration for the C4 scenario (no sub-path restriction, so that
relative hrefs reach the in-scope resolution). -/
def cfg4 : Configuration :=
  { protocol := "https:", host := "host", startPage := "/docs/index.html",
    subPathOnly := false, basePath := "/docs" }

/-- A state that already holds a record for the canonical URL
`https://host/docs/page2.html`. -/
def st4 : CrawlState :=
  { pagesVisited := [("https://host/docs/page2.html", initPageDetails 0 "r" true)]
    queue := [] }

/-- C4: the claim fails on the code.  A record for the canonical URL
`https://host/docs/page2.html` exists, the raw hrefs `page2.html`
(relative, resolved against the directory of `/docs/index.html`) and
`/docs/page2.html` both canonicalize to exactly that URL, yet `cleanURL`
returns them (not `null`), because the duplicate check reads
`pagesVisited[proposedURL]` — the raw href — instead of the canonical
`realURL` it logs; only the href spelled exactly as the stored key is
rejected. -/
theorem C4_dedup_checks_raw_href :
    findRecord st4.pagesVisited "https://host/docs/page2.html" =
      some (initPageDetails 0 "r" true) ∧
    (cleanURL cfg4 0 "page2.html" "/docs/index.html" "https://host/docs/index.html"
      st4).1 = some "https://host/docs/page2.html" ∧
    (cleanURL cfg4 0 "page2.html" "/docs/index.html" "https://host/docs/index.html"
      st4).2 = st4 ∧
    (cleanURL cfg4 0 "/docs/page2.html" "/docs/index.html"
      "https://host/docs/index.html" st4).1 = some "https://host/docs/page2.html" ∧
    (cleanURL cfg4 0 "https://host/docs/page2.html" "/docs/index.html"
      "https://host/docs/index.html" st4).1 = none := by decide

/-- A date parser that maps every string to epoch 0 (used where the date
plays no role). -/
def dv0 : String → Int := fun _ => 0

/-- A responded analyze-mode record with all metadata empty and an empty
term matrix, from which the scoring scenarios override single fields. -/
def pdBlank : PageDetails :=
  { statusCode := 200, queueTime := 0, referrer := "", analyze := true, pageScore := 0,
    title := "", description := "", keywords := "", headerOne := "", lastModified := "",
    product := "", version := "", pageAnalysis := "", wordFrequencyList := [],
    terms := some ([], []), completeTime := 0 }

/-- Record whose title is the single word "a" and whose body term list is
`a` with frequency `f`; all other metadata is empty, so the rest of
`scorePage` contributes the constant -3 (missing last-modified -2,
missing H1 -1). -/
def pdTitle (f : Int) : PageDetails :=
  { pdBlank with title := "a", terms := some (["a"], [f]) }

/-- C2 counterexample: a title word matching a body term of frequency 1
does NOT leave the term's frequency unchanged — `scorePage` raises it to
3 (the `frequency += 2` sits outside the `frequency > 1` guard), even
though the score is indeed unchanged (-3 is the no-match baseline). -/
theorem C2_title_freq_counterexample :
    (scorePage 0 dv0 (pdTitle 1)).map PageDetails.pageScore = some (-3) ∧
    (scorePage 0 dv0 (pdTitle 1)).map PageDetails.wordFrequencyList =
      some [⟨"a", 3⟩] ∧
    some [(⟨"a", 3⟩ : TermFreq)] ≠ some [(⟨"a", 1⟩ : TermFreq)] := by decide

/-- C2 amended: for a title word matching a body term with frequency `f`,
the score gains exactly 2 when `f > 1` and nothing otherwise, while the
term's frequency gains exactly 2 in BOTH cases (the increment is
unconditional on a match); in particular `f = 2` gives +2 score and
frequency 4. -/
theorem C2_title_boost (f : Int) :
    (scorePage 0 dv0 (pdTitle f)).map PageDetails.pageScore =
      some ((if f > 1 then 2 else 0) + -3) ∧
    (scorePage 0 dv0 (pdTitle f)).map PageDetails.wordFrequencyList =
      some [⟨"a", f + 2⟩] := by
  have h1 : sortWordsByFrequency ["a"] [f] = [⟨"a", f⟩] := rfl
  have h2 : splitOnChar ' ' "a" = ["a"] := rfl
  have h3 : jsToLower "a" = "a" := rfl
  by_cases hf : (1 : Int) < f
  · simp [scorePage, pdTitle, pdBlank, h1, h2, h3, boostBlock, boostPass,
      boostWordOverList, boostEntry, freshnessScore, productVersionScore,
      headerOneScore, hf]
  · simp [scorePage, pdTitle, pdBlank, h1, h2, h3, boostBlock, boostPass,
      boostWordOverList, boostEntry, freshnessScore, productVersionScore,
      headerOneScore, hf]

/-- Record whose keywords string is "a,b,c" and whose body term list is
`c` with frequency 2. -/
def pdKw : PageDetails :=
  { pdBlank with keywords := "a,b,c", terms := some (["c"], [2]) }

/-- C5: the claim fails on the code.  `keywords.replace(',', ' ')`
replaces only the FIRST comma, so "a,b,c" yields the word list
["a", "b,c"]: the term "c" (frequency 2 > 1) is never matched, the score
stays at the no-match baseline -3 instead of gaining +1, and the term's
frequency stays 2 instead of becoming 3. -/
theorem C5_keyword_comma_bug :
    splitOnChar ' ' (jsReplaceFirst ',' ' ' "a,b,c") = ["a", "b,c"] ∧
    (scorePage 0 dv0 pdKw).map PageDetails.pageScore = some (-3) ∧
    (scorePage 0 dv0 pdKw).map PageDetails.wordFrequencyList =
      some [⟨"c", 2⟩] ∧
    (scorePage 0 dv0 pdKw).map PageDetails.pageAnalysis =
      some ("; very bad: no title.; very bad: no description.; bad: no keywords appear in body.; bad: page missing last-modified.; bad: page missing H1.") := by decide

/-- Record with lastModified present ("d") and everything else empty, so
`scorePage` contributes the freshness result plus the constant -1 for the
missing H1. -/
def pdFresh : PageDetails :=
  { pdBlank with lastModified := "d" }

/-- C6: with `lastModified` present, its parsed value `lmv` is compared
against `now`: an age strictly over 365 days (in milliseconds) scores -1
with the clause "bad: page over 1 year old", any age up to and including
exactly 365 days scores +1 with "good: page is recent"; with
`lastModified` absent the score drops by exactly 2 with "bad: page
missing last-modified" (totals include the constant -1 for the missing
H1). -/
theorem C6_freshness_rule (now lmv : Int) :
    (scorePage now (fun _ => lmv) pdFresh).map PageDetails.pageScore =
      some ((if now - lmv > 365 * 24 * 60 * 60 * 1000 then -1 else 1) + -1) ∧
    (scorePage now (fun _ => lmv) pdFresh).map PageDetails.pageAnalysis =
      some ("; very bad: no title.; very bad: no description.; very bad: no keywords." ++
        (if now - lmv > 365 * 24 * 60 * 60 * 1000 then "; bad: page over 1 year old."
         else "; good: page is recent.") ++ "; bad: page missing H1.") ∧
    (scorePage now (fun _ => lmv) pdBlank).map PageDetails.pageScore = some (-3) ∧
    (scorePage now (fun _ => lmv) pdBlank).map PageDetails.pageAnalysis =
      some ("; very bad: no title.; very bad: no description.; very bad: no keywords.; bad: page missing last-modified.; bad: page missing H1.") := by
  by_cases hage : (31536000000 : Int) < now - lmv
  · simp [scorePage, pdFresh, pdBlank, boostBlock, freshnessScore,
      productVersionScore, headerOneScore, sortWordsByFrequency, combineWords,
      sortByFrequencyDescending, hage]
  · simp [scorePage, pdFresh, pdBlank, boostBlock, freshnessScore,
      productVersionScore, headerOneScore, sortWordsByFrequency, combineWords,
      sortByFrequencyDescending, hage]

/-- A string has length zero exactly when it is empty. -/
theorem strLength_eq_zero (s : String) : s.length = 0 ↔ s = "" := by
  cases s with
  | mk data =>
    constructor
    · intro h
      rw [List.length_eq_zero.mp h]
    · intro h
      rw [h]
      rfl

/-- Configuration for the scope-classification scenario: crawling host
"host" with base path "/docs". -/
def cfg7 : Configuration :=
  { protocol := "https:", host := "host", startPage := "/docs/index.html",
    subPathOnly := true, basePath := "/docs" }

/-- Referrer page for the scope-classification scenario. -/
def ref7 : String := "https://host/docs/index.html"

/-- C7 amended: a URL is in scope iff its hostname is empty or its
LOWER-CASED hostname equals the configured host string verbatim (so the
comparison is case-insensitive only in the hostname, not in the
configured host), and scope restriction is off or the pathname starts
with the base path.  With basePath "/docs", the discovered link
`/docs/page2.html` is enqueued in Analyze mode and `/other/page.html` is
enqueued probe-only (analyze = false). -/
theorem C7_scope_classification :
    (∀ (cfg : Configuration) (parts : URLParts),
      isIntendedSubPath cfg parts = true ↔
        ((parts.hostname = "" ∨ jsToLower parts.hostname = cfg.host) ∧
         (cfg.subPathOnly = false ∨ startsWithStr parts.pathname cfg.basePath = true))) ∧
    findRecord (discoverLink cfg7 0 "/docs/page2.html" "/docs/index.html" ref7
        stEmpty).pagesVisited "https://host/docs/page2.html" =
      some (initPageDetails 0 ref7 true) ∧
    findRecord (discoverLink cfg7 0 "/other/page.html" "/docs/index.html" ref7
        stEmpty).pagesVisited "https://host/other/page.html" =
      some (initPageDetails 0 ref7 false) := by
  refine ⟨fun cfg parts => ?_, by decide, by decide⟩
  simp only [isIntendedSubPath]
  split_ifs with h1 h2 <;> simp_all [strLength_eq_zero]

/-- Configuration whose host is spelled with a capital letter, on which
the claimed case-insensitive host comparison fails. -/
def cfgX : Configuration :=
  { protocol := "https:", host := "Example.com", startPage := "/a",
    subPathOnly := false, basePath := "/" }

/-- C7 counterexample: with configured host "Example.com", the URL
`https://Example.com/a` has hostname equal to the configured host
case-insensitively (the claim calls it in scope), yet
`isIntendedSubPath` classifies it out of scope, because the code
lower-cases only the URL's hostname and compares it to the configured
host string verbatim. -/
theorem C7_scope_case_counterexample :
    specInScopeClaim cfgX (urlParse "https://Example.com/a") ∧
    isIntendedSubPath cfgX (urlParse "https://Example.com/a") = false := by decide

/-- `scorePage` only writes the score, analysis, word list and `terms`
fields: status code, version and analyze flag pass through unchanged. -/
theorem scorePage_preserves (now : Int) (dv : String → Int) (pd q : PageDetails)
    (h : scorePage now dv pd = some q) :
    q.statusCode = pd.statusCode ∧ q.version = pd.version ∧ q.analyze = pd.analyze := by
  unfold scorePage at h
  by_cases ha : pd.analyze = true
  · rw [if_pos ha] at h
    cases ht : pd.terms with
    | none =>
      rw [ht] at h
      cases h
    | some tm =>
      rw [ht] at h
      simp only [Option.some.injEq] at h
      subst h
      simp
  · rw [if_neg ha] at h
    simp only [Option.some.injEq] at h
    subst h
    exact ⟨rfl, rfl, rfl⟩

/-- C8: whenever the completion pass `adjustTermScores` runs to
completion, no record whose statusCode is still the -1 sentinel survives
it, and the surviving keys are exactly the keys of the records that did
receive a response, in order. -/
theorem C8_completion_drops_unresponded (now : Int) (dv : String → Int)
    (pv pv2 : List (String × PageDetails))
    (h : adjustTermScores now dv pv = some pv2) :
    (∀ e ∈ pv2, ¬ e.2.statusCode = -1) ∧
    pv2.map Prod.fst =
      (pv.filter (fun e => e.2.statusCode != -1)).map Prod.fst := by
  induction pv generalizing pv2 with
  | nil =>
    simp only [adjustTermScores, Option.some.injEq] at h
    subst h
    simp
  | cons e rest ih =>
    obtain ⟨u, pd⟩ := e
    simp only [adjustTermScores] at h
    by_cases hs : pd.statusCode = -1
    · rw [if_pos hs] at h
      obtain ⟨h1, h2⟩ := ih _ h
      refine ⟨h1, ?_⟩
      rw [h2]
      simp [List.filter_cons, hs]
    · rw [if_neg hs] at h
      by_cases hap : pd.analyze = true ∧ pd.pageScore = 0
      · rw [if_pos hap] at h
        cases hsp : scorePage now dv pd with
        | none =>
          rw [hsp] at h
          cases h
        | some pd2 =>
          rw [hsp] at h
          obtain ⟨l2, hl2, hpv2⟩ := Option.map_eq_some'.mp h
          subst hpv2
          obtain ⟨h1, h2⟩ := ih _ hl2
          have hst : pd2.statusCode = pd.statusCode :=
            (scorePage_preserves now dv pd pd2 hsp).1
          constructor
          · intro x hx
            rcases List.mem_cons.mp hx with hx1 | hx2
            · subst hx1
              simpa [hst] using hs
            · exact h1 x hx2
          · simp only [List.map_cons, h2, List.filter_cons]
            rw [if_pos (by simpa using hs)]
            simp
      · rw [if_neg hap] at h
        obtain ⟨l2, hl2, hpv2⟩ := Option.map_eq_some'.mp h
        subst hpv2
        obtain ⟨h1, h2⟩ := ih _ hl2
        constructor
        · intro x hx
          rcases List.mem_cons.mp hx with hx1 | hx2
          · subst hx1
            simpa using hs
          · exact h1 x hx2
        · simp only [List.map_cons, h2, List.filter_cons]
          rw [if_pos (by simpa using hs)]
          simp

/-- A record map holding one never-responded record and one responded
probe record. -/
def pvW : List (String × PageDetails) :=
  [("https://host/a", initPageDetails 0 "r" true),
   ("https://host/b", { initPageDetails 0 "r" false with statusCode := 200 })]

/-- C8 witness: on `pvW` the completion pass succeeds, drops the
unresponded record and keeps the responded one. -/
theorem C8_completion_drops_unresponded_witness :
    adjustTermScores 0 dv0 pvW =
      some [("https://host/b", { initPageDetails 0 "r" false with statusCode := 200 })] ∧
    (∀ e ∈ [("https://host/b", { initPageDetails 0 "r" false with statusCode := 200 })],
      ¬ (e : String × PageDetails).2.statusCode = -1) ∧
    ([("https://host/b",
        ({ initPageDetails 0 "r" false with statusCode := 200 } : PageDetails))].map
      Prod.fst) = (pvW.filter (fun e => e.2.statusCode != -1)).map Prod.fst :=
  ⟨rfl,
   (C8_completion_drops_unresponded 0 dv0 pvW _ rfl).1,
   (C8_completion_drops_unresponded 0 dv0 pvW _ rfl).2⟩

/-- The page processor never writes the version field: whatever record a
completed fetch produces keeps the version it came in with. -/
theorem processResponse_preserves_version (cfg : Configuration) (now : Int)
    (dv : String → Int) (url : String) (sc : Int) (doc : Option ParsedDoc)
    (pd : PageDetails) (st : CrawlState) (pd2 : PageDetails) (st2 : CrawlState)
    (h : processResponse cfg now dv url sc doc pd st = some (pd2, st2)) :
    pd2.version = pd.version := by
  simp only [processResponse] at h
  split at h
  · split at h
    · split at h
      · rename_i d hcond q hq
        simp only [Option.some.injEq, Prod.mk.injEq] at h
        obtain ⟨h1, h2⟩ := h
        have hv := (scorePage_preserves _ _ _ _ hq).2.1
        rw [← h1]
        simpa using hv
      · cases h
    · simp only [Option.some.injEq, Prod.mk.injEq] at h
      obtain ⟨h1, h2⟩ := h
      rw [← h1]
  · simp only [Option.some.injEq, Prod.mk.injEq] at h
    obtain ⟨h1, h2⟩ := h
    rw [← h1]

/-- C9: the version field of every record is created as the empty string
and the page processor never changes it (it extracts the product meta tag
but no version), so in `scorePage` the product/version rule can never
take its "+1 good: page has product and version" branch on a crawled
record — a page with a product meta tag always receives the -1
product-without-version penalty. -/
theorem C9_version_always_empty :
    (∀ (now : Int) (referrer : String) (analyze : Bool),
      (initPageDetails now referrer analyze).version = "") ∧
    (∀ (cfg : Configuration) (now : Int) (dv : String → Int) (url : String)
      (sc : Int) (doc : Option ParsedDoc) (pd : PageDetails) (st : CrawlState)
      (pd2 : PageDetails) (st2 : CrawlState),
      processResponse cfg now dv url sc doc pd st = some (pd2, st2) →
      pd2.version = pd.version) ∧
    (∀ p : String, p ≠ "" →
      productVersionScore p "" = (-1, "; bad: page has product but missing version.")) ∧
    (∀ p v : String,
      productVersionScore p v = (1, "; good: page has product and version.") →
      ¬ v = "") := by
  refine ⟨fun _ _ _ => rfl, processResponse_preserves_version, ?_, ?_⟩
  · intro p hp
    simp [productVersionScore, hp]
  · intro p v h
    unfold productVersionScore at h
    split_ifs at h with hp hv
    · exact absurd h (by decide)
    · exact hv
    · exact absurd h (by decide)

/-- C9 witness: the general facts applied at a fresh record, a concrete
completed fetch (non-HTML response), and concrete product strings. -/
theorem C9_version_always_empty_witness :
    (initPageDetails 0 "r" true).version = "" ∧
    ({ initPageDetails 0 "r" true with
        statusCode := 200, analyze := false } : PageDetails).version =
      (initPageDetails 0 "r" true).version ∧
    productVersionScore "p" "" = (-1, "; bad: page has product but missing version.") ∧
    ¬ "1" = "" :=
  ⟨C9_version_always_empty.1 0 "r" true,
   C9_version_always_empty.2.1 cfg7 0 dv0 "u" 200 none (initPageDetails 0 "r" true)
     stEmpty _ _ rfl,
   C9_version_always_empty.2.2.1 "p" (by decide),
   C9_version_always_empty.2.2.2 "p" "1" rfl⟩

/-- The record `pdFresh` after its first `scorePage` run: the clauses sum
to a page score of exactly 0 (+1 recent, -1 missing H1) and the terms
field has been deleted, while the analyze flag is still set. -/
def pdFreshScored : PageDetails :=
  { pdFresh with
    pageAnalysis := "; very bad: no title.; very bad: no description.; very bad: no keywords.; good: page is recent.; bad: page missing H1."
    terms := none }

/-- C10: the claim fails on the code.  A legitimately analyzed record can
end its first `scorePage` run with pageScore 0 and `terms` deleted; the
completion pass `adjustTermScores` then re-invokes `scorePage` on it
(because analyze is set and pageScore is 0), and that second invocation
reads `pageDetails.terms.vocabulary` with `terms` absent — the modelled
crash (`none`), a TypeError in the JavaScript. -/
theorem C10_rescore_reads_deleted_terms :
    scorePage 0 dv0 pdFresh = some pdFreshScored ∧
    pdFreshScored.analyze = true ∧ pdFreshScored.pageScore = 0 ∧
    pdFreshScored.statusCode = 200 ∧ pdFreshScored.terms = none ∧
    scorePage 0 dv0 pdFreshScored = none ∧
    adjustTermScores 0 dv0 [("https://host/p", pdFreshScored)] = none := by decide
